import Mathlib

/-!
Verification of the R4A_Robot NTRIP client (src/NTRIP_Client.cpp, src/R4A_Robot.h).

The development shallowly embeds the NTRIP client subsystem:
bytes are `Nat` (C `char`/`uint8_t` values), C strings are `List Nat`
(the contents up to the NUL terminator), the ring buffer is a pair of
indices plus a byte store, and the `update` state machine is a function
from a per-tick environment to a new client state.
-/

/-! ## Constants from R4A_Robot.h -/

def R4A_NTRIP_CLIENT_RING_BUFFER_BYTES : Nat := 8192

def R4A_NTRIP_CLIENT_MINIMUM_RX_BYTES : Nat := 32

def R4A_NTRIP_CLIENT_RESPONSE_BUFFER_SIZE : Nat := 512

def R4A_NTRIP_CLIENT_CONNECTION_TIME : Nat := 5 * 60 * 1000

/-- State encoding from the `r4aNtripClientState` enum. -/
def NTRIP_CLIENT_OFF : Nat := 0

def NTRIP_CLIENT_WAIT_FOR_WIFI : Nat := 1

def NTRIP_CLIENT_CONNECTING : Nat := 2

def NTRIP_CLIENT_WAIT_RESPONSE : Nat := 3

def NTRIP_CLIENT_HANDLE_RESPONSE : Nat := 4

def NTRIP_CLIENT_CONNECTED : Nat := 5

/-! ## C string primitives used by the response classifier

`strstr` scans the haystack for the first occurrence of the needle;
`strcasestr` does the same after mapping both sides through `tolower`.
Strings are byte lists; `strBytes` converts a Lean string literal. -/

/-- Byte values of an ASCII string literal. -/
def strBytes (s : String) : List Nat := s.toList.map Char.toNat

/-- ASCII `tolower` (C locale): map the bytes of `A`..`Z` to `a`..`z`. -/
def lowerByte (b : Nat) : Nat := if 65 ≤ b ∧ b ≤ 90 then b + 32 else b

/-- `needle` is a byte-for-byte prefix of `hay`. -/
def bytesPrefix : List Nat → List Nat → Bool
  | [], _ => true
  | _ :: _, [] => false
  | a :: as, b :: bs => a == b && bytesPrefix as bs

/-- `strstr(hay, needle) != nullptr`: some suffix of `hay` starts with `needle`. -/
def strstrFound : List Nat → List Nat → Bool
  | [], needle => bytesPrefix needle []
  | h :: t, needle => bytesPrefix needle (h :: t) || strstrFound t needle

/-- `strcasestr(hay, needle) != nullptr`: case-insensitive form of `strstrFound`. -/
def strcasestrFound (hay needle : List Nat) : Bool :=
  strstrFound (hay.map lowerByte) (needle.map lowerByte)

/-! ## Response classifier

The eight outcomes of the `NTRIP_CLIENT_HANDLE_RESPONSE` case of
`r4aNtripClientUpdate` (NTRIP_Client.cpp lines 873-982). -/

inductive CasterOutcome where
  | permanentBan
  | sandboxRedirect
  | mountNotFound
  | success
  | unauthorized
  | startupPhase
  | casterError
  | noResponse
deriving DecidableEq

/-- Classification decision tree exactly as the `NTRIP_CLIENT_HANDLE_RESPONSE`
case performs it: `strstr` for the numeric markers, `strcasestr` for the
word markers, nested under the "200" test, with the first-chunk length
(`_responseLength`) separating a caster error from no response at all. -/
def classifyResponse (response : List Nat) (responseLength : Nat) : CasterOutcome :=
  if strstrFound response (strBytes "200") then
    if strcasestrFound response (strBytes "banned") then .permanentBan
    else if strcasestrFound response (strBytes "sandbox") then .sandboxRedirect
    else if strcasestrFound response (strBytes "SOURCETABLE") then .mountNotFound
    else .success
  else if strstrFound response (strBytes "401") then .unauthorized
  else if strstrFound response (strBytes "406") then .startupPhase
  else if responseLength ≠ 0 then .casterError
  else .noResponse

/-- Classifier as the specification words it (section 4.3): a flat priority
list of case-insensitive substring tests, with `bytes_received > 0`
separating `CasterError` from `NoResponse`. -/
def classifySpec (response : List Nat) (bytesReceived : Nat) : CasterOutcome :=
  if strcasestrFound response (strBytes "200") ∧ strcasestrFound response (strBytes "banned") then
    .permanentBan
  else if strcasestrFound response (strBytes "200") ∧ strcasestrFound response (strBytes "sandbox") then
    .sandboxRedirect
  else if strcasestrFound response (strBytes "200") ∧ strcasestrFound response (strBytes "sourcetable") then
    .mountNotFound
  else if strcasestrFound response (strBytes "200") then .success
  else if strcasestrFound response (strBytes "401") then .unauthorized
  else if strcasestrFound response (strBytes "406") then .startupPhase
  else if 0 < bytesReceived then .casterError
  else .noResponse

/-! ## Ring buffer

`r4aNtripClientRbAddData` / `r4aNtripClientRbRemoveData` over the state
`_rbHead`, `_rbTail`, `_ringBuffer` of `_R4A_NTRIP_CLIENT`.  The byte store
is a function so that the wrap arithmetic of the source stays visible.
The socket `read` collaborator is modelled as delivering exactly the
requested number of bytes out of the pending byte list (the call sites pass
`available()` bytes), and the push collaborator as accepting any count from
0 up to the bytes offered per call (an exhausted response list accepts 0). -/

structure RingBuf where
  head : Nat
  tail : Nat
  buf : Nat → Nat

/-- The ring buffer of the zero-initialised global `r4aNtripClient`. -/
def rbEmpty : RingBuf := { head := 0, tail := 0, buf := fun _ => 0 }

/-- `bytesFree` of `r4aNtripClientRbAddData`: the C source computes
`(tail - head + (N << 1) - 1) % N` in `int`; for `0 ≤ head < N` the operand
is nonnegative, so C's truncating `%` agrees with this `Nat` form. -/
def rbBytesFree (rb : RingBuf) : Nat :=
  (rb.tail + 2 * R4A_NTRIP_CLIENT_RING_BUFFER_BYTES - 1 - rb.head) %
    R4A_NTRIP_CLIENT_RING_BUFFER_BYTES

/-- `bytesAvailable` of `r4aNtripClientRbRemoveData`:
`(head + N - tail) % N`, nonnegative for `tail < N`. -/
def rbBytesAvailable (rb : RingBuf) : Nat :=
  (rb.head + R4A_NTRIP_CLIENT_RING_BUFFER_BYTES - rb.tail) %
    R4A_NTRIP_CLIENT_RING_BUFFER_BYTES

/-- Store the bytes of `data` at consecutive indices starting at `start`
(one contiguous socket `read` into the array). -/
def writeRun (buf : Nat → Nat) : Nat → List Nat → Nat → Nat
  | _, [] => buf
  | start, b :: rest => writeRun (Function.update buf start b) (start + 1) rest

/-- `r4aNtripClientRbAddData` (NTRIP_Client.cpp lines 390-457): clamp the
transfer to the free space, fill the contiguous run up to the physical end
of the array, wrap for the remainder, and advance `head` by the bytes
accepted.  Returns the new buffer and `bytesWritten`.  (The `_timer`
update on a nonzero transfer lives in the state machine model.) -/
def r4aNtripClientRbAddData (rb : RingBuf) (data : List Nat) : RingBuf × Nat :=
  let bytesFree := rbBytesFree rb
  if bytesFree = 0 then (rb, 0)
  else
    let length := min data.length bytesFree
    let bytesToTail := R4A_NTRIP_CLIENT_RING_BUFFER_BYTES - rb.head
    let bytesToCopy := min length bytesToTail
    let buf1 := writeRun rb.buf rb.head (data.take bytesToCopy)
    let buf2 := writeRun buf1 0 ((data.take length).drop bytesToCopy)
    let headAdv := rb.head + length
    let head2 := if headAdv ≥ R4A_NTRIP_CLIENT_RING_BUFFER_BYTES
                 then headAdv - R4A_NTRIP_CLIENT_RING_BUFFER_BYTES else headAdv
    ({ head := head2, tail := rb.tail, buf := buf2 }, length)

/-- One iteration's chunk-size computation of `r4aNtripClientRbRemoveData`
(lines 503-532), in the `int` arithmetic of the source: limit the push to
the available bytes, then to the contiguous run before the physical wrap,
then to the I2C transaction size; finally, when the contiguous leftover
before the wrap would be a nonzero sliver below the 32-byte minimum,
shrink the chunk so the leftover reaches the minimum. -/
def rbBytesToPush (bytesAvailable bytesToTail transactionSize : Int) : Int :=
  let b1 := if bytesAvailable > bytesToTail then bytesToTail else bytesAvailable
  let b2 := if b1 > transactionSize then transactionSize else b1
  let leftover := bytesToTail - b2
  if leftover ≠ 0 ∧ leftover < (R4A_NTRIP_CLIENT_MINIMUM_RX_BYTES : Int)
  then b2 - ((R4A_NTRIP_CLIENT_MINIMUM_RX_BYTES : Int) - leftover)
  else b2

/-- The push loop of `r4aNtripClientRbRemoveData` (lines 503-549).
`resp` holds the byte counts the push collaborator accepts on successive
calls, each clamped to the bytes offered; a zero acceptance breaks the
loop as in the source.  Returns the final buffer, `bytesWritten`, and the
pushed bytes in order. -/
def rbRemoveLoop (transactionSize : Nat) : List Nat → RingBuf → Nat → RingBuf × Nat × List Nat
  | [], rb, _ => (rb, 0, [])
  | r :: rest, rb, bytesAvailable =>
    if bytesAvailable ≥ 2 * R4A_NTRIP_CLIENT_MINIMUM_RX_BYTES then
      let bytesToTail : Int := (R4A_NTRIP_CLIENT_RING_BUFFER_BYTES : Int) - (rb.tail : Int)
      let bytesToPush := (rbBytesToPush (bytesAvailable : Int) bytesToTail
        (transactionSize : Int)).toNat
      let bytesPushed := min r bytesToPush
      if bytesPushed = 0 then (rb, 0, [])
      else
        let pushed := (List.range bytesPushed).map (fun i => rb.buf (rb.tail + i))
        let tailAdv := rb.tail + bytesPushed
        let tail2 := if tailAdv ≥ R4A_NTRIP_CLIENT_RING_BUFFER_BYTES
                     then tailAdv - R4A_NTRIP_CLIENT_RING_BUFFER_BYTES else tailAdv
        let res := rbRemoveLoop transactionSize rest
          { head := rb.head, tail := tail2, buf := rb.buf } (bytesAvailable - bytesPushed)
        (res.1, bytesPushed + res.2.1, pushed ++ res.2.2)
    else (rb, 0, [])

/-- `r4aNtripClientRbRemoveData` (lines 461-558): a no-op unless the client
state is `NTRIP_CLIENT_CONNECTED`; otherwise run the push loop on the
bytes available. -/
def r4aNtripClientRbRemoveData (state transactionSize : Nat) (resp : List Nat)
    (rb : RingBuf) : RingBuf × Nat × List Nat :=
  if state ≠ NTRIP_CLIENT_CONNECTED then (rb, 0, [])
  else rbRemoveLoop transactionSize resp rb (rbBytesAvailable rb)

/-- Well-formedness: both cursors inside the array, as the source maintains
by its wrap arithmetic. -/
def rbWF (rb : RingBuf) : Prop :=
  rb.head < R4A_NTRIP_CLIENT_RING_BUFFER_BYTES ∧ rb.tail < R4A_NTRIP_CLIENT_RING_BUFFER_BYTES

/-- The bytes currently queued, from `tail` to `head` in ring order. -/
def rbPending (rb : RingBuf) : List Nat :=
  (List.range (rbBytesAvailable rb)).map
    (fun i => rb.buf ((rb.tail + i) % R4A_NTRIP_CLIENT_RING_BUFFER_BYTES))

/-- An interleaving step: a network write or a drain to the receiver. -/
inductive RbEvent where
  | write (data : List Nat)
  | drain (state transactionSize : Nat) (resp : List Nat)

/-- Run a sequence of writes and drains, accumulating the bytes submitted
by the network side and the bytes handed to the push collaborator. -/
def rbRunTrace : RingBuf → List RbEvent → RingBuf × List Nat × List Nat
  | rb, [] => (rb, [], [])
  | rb, RbEvent.write data :: rest =>
    let r := r4aNtripClientRbAddData rb data
    let t := rbRunTrace r.1 rest
    (t.1, data ++ t.2.1, t.2.2)
  | rb, RbEvent.drain st tx resp :: rest =>
    let r := r4aNtripClientRbRemoveData st tx resp rb
    let t := rbRunTrace r.1 rest
    (t.1, t.2.1, r.2.2 ++ t.2.2)

/-- The overflow-freedom side condition of the FIFO property: at each
write, the total bytes written so far (including this write) stay within
the bytes already drained plus `capacity - 1`. -/
def rbTraceOK : Nat → Nat → RingBuf → List RbEvent → Prop
  | _, _, _, [] => True
  | written, delivered, rb, RbEvent.write data :: rest =>
    written + data.length ≤ delivered + (R4A_NTRIP_CLIENT_RING_BUFFER_BYTES - 1) ∧
      rbTraceOK (written + data.length) delivered (r4aNtripClientRbAddData rb data).1 rest
  | written, delivered, rb, RbEvent.drain st tx resp :: rest =>
    rbTraceOK written (delivered + (r4aNtripClientRbRemoveData st tx resp rb).2.1)
      (r4aNtripClientRbRemoveData st tx resp rb).1 rest

/-- A sequence of writes with no intervening drain. -/
def rbRunWrites (rb : RingBuf) (datas : List (List Nat)) : RingBuf :=
  datas.foldl (fun b d => (r4aNtripClientRbAddData b d).1) rb

/-! ## State machine

`r4aNtripClientUpdate` and its helpers, over the fields of the global
`r4aNtripClient` together with the global flags `r4aNtripClientEnable`
and `r4aNtripClientForcedShutdown` and the backoff configuration.
Timestamps are `millis()` values; the source subtracts them in `uint32_t`,
modelled by `u32sub`.  The per-tick inputs (WiFi status, current time,
socket status and pending bytes, allocation/connect results, I2C size)
form the environment. -/

/-- `uint32_t` subtraction `a - b` as the C source performs it on
`millis()` values. -/
def u32sub (a b : Nat) : Nat := (a % 2 ^ 32 + 2 ^ 32 - b % 2 ^ 32) % 2 ^ 32

structure NtripConfig where
  casterHostSet : Bool
  casterMountPointSet : Bool
  casterUserSet : Bool
  backoffTable : List Nat
  receiveTimeout : Nat
  responseDone : Nat
  responseTimeout : Nat

/-- `r4aNtripClientBbackoffCount`, documented to equal the number of
entries of `r4aNtripClientBbackoffIntervalMsec`. -/
def NtripConfig.backoffCount (cfg : NtripConfig) : Nat := cfg.backoffTable.length

structure NtripState where
  state : Nat
  clientAllocated : Bool
  connectionDelayMsec : Nat
  connectionAttempts : Nat
  connectionAttemptsTotal : Nat
  timer : Nat
  startTime : Nat
  responseBuffer : List Nat
  responseLength : Nat
  rb : RingBuf
  i2cTransactionSize : Nat
  enable : Bool
  forcedShutdown : Bool

structure NtripEnv where
  wifiConnected : Bool
  now : Nat
  sockConnected : Bool
  sockData : List Nat
  allocOk : Bool
  connectOk : Bool
  i2cSize : Nat

/-- `r4aNtripClientStop` (lines 648-718): release the socket client; when
shutting down (or disabled) go to `Off` and clear the attempt counter;
otherwise compute the backoff delay from the table (index clamped to the
last entry), restart the backoff timer, and go to wait-for-WiFi.
Returns the `stopped` result and the new state. -/
def r4aNtripClientStop (cfg : NtripConfig) (now : Nat) (shutdown : Bool)
    (s : NtripState) : Bool × NtripState :=
  let s := { s with clientAllocated := false }
  let stopped := shutdown || !s.enable
  if stopped then
    if s.state ≠ NTRIP_CLIENT_OFF then
      (true, { s with state := NTRIP_CLIENT_OFF, connectionAttempts := 0 })
    else (true, s)
  else
    let index := if s.connectionAttempts ≥ cfg.backoffCount then cfg.backoffCount - 1
                 else s.connectionAttempts
    (false, { s with connectionDelayMsec := cfg.backoffTable.getD index 0,
                     timer := now,
                     state := NTRIP_CLIENT_WAIT_FOR_WIFI })

/-- `r4aNtripClientConnectLimitReached` (lines 235-250): the shared
restart-with-backoff sub-procedure. -/
def r4aNtripClientConnectLimitReached (cfg : NtripConfig) (now : Nat)
    (s : NtripState) : Bool × NtripState :=
  let limitReached := decide (s.connectionAttempts ≥ cfg.backoffCount)
  (limitReached, (r4aNtripClientStop cfg now limitReached s).2)

/-- `r4aNtripClientForceShutdown` (lines 298-302). -/
def r4aNtripClientForceShutdown (cfg : NtripConfig) (now : Nat)
    (s : NtripState) : NtripState :=
  (r4aNtripClientStop cfg now true { s with forcedShutdown := true }).2

/-- `r4aNtripClientRestart` (lines 602-608). -/
def r4aNtripClientRestart (cfg : NtripConfig) (now : Nat) (s : NtripState) : NtripState :=
  let s := if s.state = NTRIP_CLIENT_CONNECTED
           then { s with startTime := u32sub s.timer s.startTime } else s
  (r4aNtripClientConnectLimitReached cfg now s).2

/-- `r4aNtripClientStart` (lines 637-644). -/
def r4aNtripClientStart (cfg : NtripConfig) (now i2c : Nat) (s : NtripState) : NtripState :=
  (r4aNtripClientStop cfg now false { s with i2cTransactionSize := i2c }).2

/-- `r4aNtripClientResponse` (lines 562-598): read the pending caster
bytes, clamped to the 511-byte response scratch; keep only the first
chunk in `_responseBuffer` (later chunks are drained and discarded), and
extend the end-of-response timer.  With the socket model delivering the
full requested count, the C loop makes exactly one pass. -/
def r4aNtripClientResponse (now : Nat) (sock : List Nat) (length : Nat)
    (s : NtripState) : NtripState :=
  let len := min length (R4A_NTRIP_CLIENT_RESPONSE_BUFFER_SIZE - 1)
  let chunk := sock.take len
  if s.responseLength = 0 then
    { s with responseBuffer := chunk, responseLength := chunk.length, timer := now }
  else { s with timer := now }

/-- The receive loop of the `NTRIP_CLIENT_CONNECTED` case (lines 1026-1034):
while socket bytes remain, move them into the ring buffer.  The fuel is
the pending byte count; when the ring is full the source's loop can make
no progress (`RbAddData` accepts 0 bytes), and the model exits where the
C code would spin.  Returns the buffer, the unconsumed socket bytes, and
whether any bytes were transferred (which restarts `_timer`). -/
def rbAddFromSock : Nat → RingBuf → List Nat → RingBuf × List Nat × Bool
  | 0, rb, sock => (rb, sock, false)
  | fuel + 1, rb, sock =>
    if sock.isEmpty then (rb, sock, false)
    else
      let r := r4aNtripClientRbAddData rb sock
      if r.2 = 0 then (r.1, sock.drop r.2, false)
      else
        let t := rbAddFromSock fuel r.1 (sock.drop r.2)
        (t.1, t.2.1, true)

/-- `NTRIP_CLIENT_OFF` case of `r4aNtripClientUpdate` (lines 766-788). -/
def ntripUpdateOff (cfg : NtripConfig) (env : NtripEnv) (s : NtripState) : NtripState :=
  if s.enable then
    if s.forcedShutdown then { s with enable := false }
    else if !cfg.casterHostSet then { s with enable := false }
    else if !cfg.casterMountPointSet then { s with enable := false }
    else if !cfg.casterUserSet then { s with enable := false }
    else r4aNtripClientStart cfg env.now env.i2cSize s
  else s

/-- `NTRIP_CLIENT_WAIT_FOR_WIFI` case (lines 791-813). -/
def ntripUpdateWaitForWifi (cfg : NtripConfig) (env : NtripEnv) (s : NtripState) : NtripState :=
  if env.wifiConnected then
    if !env.allocOk then r4aNtripClientForceShutdown cfg env.now s
    else { s with clientAllocated := true,
                  connectionAttempts := s.connectionAttempts + 1,
                  connectionAttemptsTotal := s.connectionAttemptsTotal + 1,
                  state := NTRIP_CLIENT_CONNECTING }
  else s

/-- `NTRIP_CLIENT_CONNECTING` case (lines 815-840); `r4aNtripClientConnect`
fails when the client structure is missing or the TCP connect fails. -/
def ntripUpdateConnecting (cfg : NtripConfig) (env : NtripEnv) (s : NtripState) : NtripState :=
  if u32sub env.now s.timer ≥ s.connectionDelayMsec then
    if !(s.clientAllocated && env.connectOk) then
      (r4aNtripClientConnectLimitReached cfg env.now s).2
    else { s with timer := env.now, responseLength := 0,
                  state := NTRIP_CLIENT_WAIT_RESPONSE }
  else s

/-- `NTRIP_CLIENT_WAIT_RESPONSE` case (lines 842-871). -/
def ntripUpdateWaitResponse (cfg : NtripConfig) (env : NtripEnv) (s : NtripState) : NtripState :=
  let length := env.sockData.length
  if length ≠ 0 then
    if env.sockData.headD 0 = 0xd3 then { s with state := NTRIP_CLIENT_HANDLE_RESPONSE }
    else r4aNtripClientResponse env.now env.sockData length s
  else if u32sub env.now s.timer ≥ cfg.responseDone then
    { s with state := NTRIP_CLIENT_HANDLE_RESPONSE }
  else if s.responseLength = 0 ∧ u32sub env.now s.timer > cfg.responseTimeout then
    (r4aNtripClientConnectLimitReached cfg env.now s).2
  else s

/-- `NTRIP_CLIENT_HANDLE_RESPONSE` case (lines 873-982), dispatching on the
classifier's outcome exactly as the nested `strstr`/`strcasestr` tests do. -/
def ntripUpdateHandleResponse (cfg : NtripConfig) (env : NtripEnv) (s : NtripState) : NtripState :=
  match classifyResponse s.responseBuffer s.responseLength with
  | .permanentBan => r4aNtripClientForceShutdown cfg env.now s
  | .sandboxRedirect => (r4aNtripClientConnectLimitReached cfg env.now s).2
  | .mountNotFound => r4aNtripClientForceShutdown cfg env.now s
  | .success => { s with startTime := env.now, timer := env.now,
                         state := NTRIP_CLIENT_CONNECTED }
  | .unauthorized => r4aNtripClientForceShutdown cfg env.now s
  | .startupPhase => r4aNtripClientRestart cfg env.now s
  | .casterError => r4aNtripClientForceShutdown cfg env.now s
  | .noResponse => (r4aNtripClientConnectLimitReached cfg env.now s).2

/-- `NTRIP_CLIENT_CONNECTED` case (lines 984-1037). -/
def ntripUpdateConnected (cfg : NtripConfig) (env : NtripEnv) (s : NtripState) : NtripState :=
  if !env.sockConnected then r4aNtripClientRestart cfg env.now s
  else
    let s := if s.connectionAttempts ≠ 0 ∧
                u32sub env.now s.startTime > R4A_NTRIP_CLIENT_CONNECTION_TIME
             then { s with connectionAttempts := 0 } else s
    if env.sockData.length = 0 then
      if u32sub env.now s.timer > cfg.receiveTimeout
      then r4aNtripClientRestart cfg env.now s else s
    else
      let t := rbAddFromSock env.sockData.length s.rb env.sockData
      { s with rb := t.1, timer := if t.2.2 then env.now else s.timer }

/-- `r4aNtripClientUpdate` (lines 724-1039): the disable check, the WiFi
and broken-socket checks, then the switch on the (possibly already
updated) state. -/
def r4aNtripClientUpdate (cfg : NtripConfig) (env : NtripEnv) (s0 : NtripState) : NtripState :=
  let s1 := if s0.enable = false ∧ NTRIP_CLIENT_OFF < s0.state
            then (r4aNtripClientStop cfg env.now true s0).2 else s0
  let s2 := if env.wifiConnected = false ∧ NTRIP_CLIENT_WAIT_FOR_WIFI < s1.state
            then r4aNtripClientRestart cfg env.now s1
            else if NTRIP_CLIENT_WAIT_RESPONSE < s1.state ∧ env.sockConnected = false
            then r4aNtripClientRestart cfg env.now s1
            else s1
  match s2.state with
  | 0 => ntripUpdateOff cfg env s2
  | 1 => ntripUpdateWaitForWifi cfg env s2
  | 2 => ntripUpdateConnecting cfg env s2
  | 3 => ntripUpdateWaitResponse cfg env s2
  | 4 => ntripUpdateHandleResponse cfg env s2
  | 5 => ntripUpdateConnected cfg env s2
  | _ => s2

/-- A supervised run: before each tick the operator may set the enable
flag (the menu writes `r4aNtripClientEnable`), then `update` runs. -/
def ntripRunTicks (cfg : NtripConfig) : List (Bool × NtripEnv) → NtripState → NtripState
  | [], s => s
  | (en, env) :: rest, s =>
    ntripRunTicks cfg rest (r4aNtripClientUpdate cfg env { s with enable := en })

/-! ## NTRIP caster handshake request (r4aNtripClientConnect)

The request bytes as character lists; `b64` abstracts the external
base64 encoder the source takes from the ESP32 library. -/

/-- Character list of a string literal. -/
def strL (s : String) : List Char := s.toList

structure NtripRequestConfig where
  mountPoint : List Char
  user : List Char
  password : List Char
  company : List Char
  product : List Char
  version : List Char

/-- The credentials block of `r4aNtripClientConnect` (lines 160-193):
with no user configured, a literal accept/close pair; otherwise
`Authorization: Basic` plus the base64-encoded `user:password`. -/
def ntripClientCredentials (b64 : List Char → List Char) (cfg : NtripRequestConfig) : List Char :=
  if cfg.user.length = 0 then strL "Accept: */*\r\nConnection: close"
  else strL "Authorization: Basic " ++ b64 (cfg.user ++ strL ":" ++ cfg.password)

/-- The server request `r4aNtripClientConnect` builds and writes to the
socket (lines 195-229), by the same sequence of concatenations. -/
def r4aNtripClientServerRequest (b64 : List Char → List Char)
    (cfg : NtripRequestConfig) : List Char :=
  strL "GET /" ++ cfg.mountPoint ++ strL " HTTP/1.0" ++ strL "\r\n"
    ++ strL "User-Agent: NTRIP " ++ cfg.company ++ strL "_" ++ cfg.product
    ++ strL "_" ++ cfg.version ++ strL "\r\n"
    ++ ntripClientCredentials b64 cfg ++ strL "\r\n" ++ strL "\r\n"

/-- The handshake exactly as the claim words it: request line, then
`User-Agent: NTRIP <product>_<version>`, then the credentials line,
terminated by a blank line. -/
def specServerRequest (b64 : List Char → List Char)
    (cfg : NtripRequestConfig) : List Char :=
  strL "GET /" ++ cfg.mountPoint ++ strL " HTTP/1.0\r\n"
    ++ strL "User-Agent: NTRIP " ++ cfg.product ++ strL "_" ++ cfg.version ++ strL "\r\n"
    ++ (if cfg.user.length ≠ 0 then
          strL "Authorization: Basic " ++ b64 (cfg.user ++ strL ":" ++ cfg.password)
            ++ strL "\r\n"
        else strL "Accept: */*\r\nConnection: close\r\n")
    ++ strL "\r\n"

/-- The handshake template amended to name all three product identity
strings: `User-Agent: NTRIP <company>_<product>_<version>`. -/
def specServerRequestAmended (b64 : List Char → List Char)
    (cfg : NtripRequestConfig) : List Char :=
  strL "GET /" ++ cfg.mountPoint ++ strL " HTTP/1.0\r\n"
    ++ strL "User-Agent: NTRIP " ++ cfg.company ++ strL "_" ++ cfg.product
    ++ strL "_" ++ cfg.version ++ strL "\r\n"
    ++ (if cfg.user.length ≠ 0 then
          strL "Authorization: Basic " ++ b64 (cfg.user ++ strL ":" ++ cfg.password)
            ++ strL "\r\n"
        else strL "Accept: */*\r\nConnection: close\r\n")
    ++ strL "\r\n"

/-! ## Concrete instances for witnesses and counterexamples -/

/-- A configuration with the documented defaults (response quiet time
1000 ms, response timeout 10000 ms, receive timeout 60000 ms) and a
four-entry backoff table. -/
def cfgDefault : NtripConfig :=
  { casterHostSet := true
    casterMountPointSet := true
    casterUserSet := true
    backoffTable := [0, 15000, 30000, 60000]
    receiveTimeout := 60000
    responseDone := 1000
    responseTimeout := 10000 }

/-- The zero-initialised client with the enable flag set. -/
def stateDefault : NtripState :=
  { state := NTRIP_CLIENT_OFF
    clientAllocated := false
    connectionDelayMsec := 0
    connectionAttempts := 0
    connectionAttemptsTotal := 0
    timer := 0
    startTime := 0
    responseBuffer := []
    responseLength := 0
    rb := rbEmpty
    i2cTransactionSize := 32
    enable := true
    forcedShutdown := false }

/-- A connected session whose ring buffer holds two queued bytes
(head 5, tail 3). -/
def c8state : NtripState :=
  { stateDefault with
    state := NTRIP_CLIENT_CONNECTED
    clientAllocated := true
    connectionAttempts := 1
    connectionAttemptsTotal := 1
    rb := { head := 5, tail := 3, buf := fun _ => 0 } }

/-- A client waiting for the caster's response that has received no bytes
at all (first-chunk length 0), connected at time 0. -/
def c9state : NtripState :=
  { stateDefault with
    state := NTRIP_CLIENT_WAIT_RESPONSE
    clientAllocated := true
    connectionAttempts := 1
    connectionAttemptsTotal := 1 }

/-- A tick 20000 ms after connecting, WiFi up, socket connected, and no
caster bytes pending: past both the 1000 ms quiet timeout and the
10000 ms response timeout. -/
def c9env : NtripEnv :=
  { wifiConnected := true
    now := 20000
    sockConnected := true
    sockData := []
    allocOk := true
    connectOk := true
    i2cSize := 32 }

/-- A configuration whose end-of-header quiet timeout (100000 ms) exceeds
the response timeout (10000 ms), so the direct response-timeout branch of
`NTRIP_CLIENT_WAIT_RESPONSE` is reachable. -/
def c9cfg : NtripConfig := { cfgDefault with responseDone := 100000 }

/-- A client processing the captured caster response
"401 Unauthorized". -/
def c6state : NtripState :=
  { stateDefault with
    state := NTRIP_CLIENT_HANDLE_RESPONSE
    clientAllocated := true
    connectionAttempts := 1
    connectionAttemptsTotal := 1
    responseBuffer := strBytes "401 Unauthorized"
    responseLength := 16 }

/-- A handshake configuration with no user configured and distinct
company/product/version strings. -/
def c7cfg : NtripRequestConfig :=
  { mountPoint := strL "MNT"
    user := []
    password := []
    company := strL "C"
    product := strL "P"
    version := strL "V" }

/-! ## Supporting lemmas for the classifier -/

/-- A byte that is neither an uppercase nor a lowercase ASCII letter,
so `tolower` neither moves it nor maps any other byte onto it. -/
def caselessByte (d : Nat) : Prop := (d < 65 ∨ 90 < d) ∧ (d < 97 ∨ 122 < d)

instance : DecidablePred caselessByte := fun d => by unfold caselessByte; infer_instance

theorem lowerByte_eq_iff {d : Nat} (hd : caselessByte d) (b : Nat) :
    lowerByte b = d ↔ b = d := by
  obtain ⟨h1, h2⟩ := hd
  unfold lowerByte
  split
  · constructor
    · intro h; omega
    · intro h; omega
  · exact Iff.rfl

theorem bytesPrefix_map_lower {needle : List Nat}
    (hn : ∀ d ∈ needle, caselessByte d) :
    ∀ hay : List Nat, bytesPrefix needle (hay.map lowerByte) = bytesPrefix needle hay := by
  induction needle with
  | nil => intro hay; cases hay <;> rfl
  | cons a as ih =>
    intro hay
    cases hay with
    | nil => rfl
    | cons b bs =>
      simp only [List.map_cons, bytesPrefix]
      have ha : caselessByte a := hn a (List.mem_cons_self a as)
      have has : ∀ d ∈ as, caselessByte d := fun d hd => hn d (List.mem_cons_of_mem a hd)
      rw [ih has bs]
      by_cases hba : lowerByte b = a
      · have : b = a := (lowerByte_eq_iff ha b).mp hba
        rw [hba, this]
      · have hne : b ≠ a := fun h => hba ((lowerByte_eq_iff ha b).mpr h)
        have hba2 : (a == lowerByte b) = false := by
          simp only [beq_eq_false_iff_ne]
          exact fun h => hba h.symm
        have hb2 : (a == b) = false := by
          simp only [beq_eq_false_iff_ne]
          exact fun h => hne h.symm
        rw [hba2, hb2]

theorem strstrFound_map_lower {needle : List Nat}
    (hn : ∀ d ∈ needle, caselessByte d) :
    ∀ hay : List Nat, strstrFound (hay.map lowerByte) needle = strstrFound hay needle := by
  intro hay
  induction hay with
  | nil => rfl
  | cons b bs ih =>
    simp only [List.map_cons, strstrFound]
    rw [ih]
    have := bytesPrefix_map_lower hn (b :: bs)
    simp only [List.map_cons] at this
    rw [this]

/-- For a needle without lowercase letters (such as a digit string),
case-insensitive search agrees with plain search when the needle
is fixed by `tolower`. -/
theorem strcasestrFound_digits (needle : List Nat)
    (hfix : needle.map lowerByte = needle)
    (hn : ∀ d ∈ needle, caselessByte d) (hay : List Nat) :
    strcasestrFound hay needle = strstrFound hay needle := by
  unfold strcasestrFound
  rw [hfix, strstrFound_map_lower hn hay]

/-! ## Claim C1 -/

/-- C1: for every captured response text and first-chunk byte count,
the `HandleResponse` classification of `r4aNtripClientUpdate` agrees with
the specification's priority table of case-insensitive substring tests:
"200"+"banned" is a permanent ban, "200"+"sandbox" a transient sandbox
redirect, "200"+"sourcetable" a permanent mount-not-found, "200" alone
success, then "401" permanent unauthorized, then "406" transient startup
phase, then a nonzero first-chunk length a permanent caster error, and a
zero first-chunk length the transient no-response outcome. -/
theorem C1_classifier_follows_spec (response : List Nat) (responseLength : Nat) :
    classifyResponse response responseLength = classifySpec response responseLength := by
  have h200 : strcasestrFound response (strBytes "200") = strstrFound response (strBytes "200") :=
    strcasestrFound_digits _ (by decide) (by decide) response
  have h401 : strcasestrFound response (strBytes "401") = strstrFound response (strBytes "401") :=
    strcasestrFound_digits _ (by decide) (by decide) response
  have h406 : strcasestrFound response (strBytes "406") = strstrFound response (strBytes "406") :=
    strcasestrFound_digits _ (by decide) (by decide) response
  have hmap : (strBytes "SOURCETABLE").map lowerByte = (strBytes "sourcetable").map lowerByte := by
    decide
  have hsrc : strcasestrFound response (strBytes "SOURCETABLE")
      = strcasestrFound response (strBytes "sourcetable") := by
    unfold strcasestrFound
    rw [hmap]
  unfold classifyResponse classifySpec
  rw [h200, h401, h406, ← hsrc]
  by_cases c200 : strstrFound response (strBytes "200") = true <;>
    by_cases cban : strcasestrFound response (strBytes "banned") = true <;>
      by_cases csand : strcasestrFound response (strBytes "sandbox") = true <;>
        by_cases csrc : strcasestrFound response (strBytes "SOURCETABLE") = true <;>
          simp [c200, cban, csand, csrc, Nat.pos_iff_ne_zero]

/-! ## Claim C4 -/

/-- C4: for every buffer position of the read cursor, every available byte
count and every transaction size, the chunk the drain loop offers never
leaves a contiguous remainder of strictly between 1 and 31 bytes before
the buffer's physical wrap point: the leftover
`(N - tail) - bytesToPush` is either zero or at least `MIN_CHUNK = 32`. -/
theorem C4_no_sliver (tail bytesAvailable transactionSize : Int) :
    ((R4A_NTRIP_CLIENT_RING_BUFFER_BYTES : Int) - tail)
        - rbBytesToPush bytesAvailable ((R4A_NTRIP_CLIENT_RING_BUFFER_BYTES : Int) - tail)
            transactionSize = 0 ∨
      (R4A_NTRIP_CLIENT_MINIMUM_RX_BYTES : Int) ≤
        ((R4A_NTRIP_CLIENT_RING_BUFFER_BYTES : Int) - tail)
          - rbBytesToPush bytesAvailable ((R4A_NTRIP_CLIENT_RING_BUFFER_BYTES : Int) - tail)
              transactionSize := by
  unfold rbBytesToPush R4A_NTRIP_CLIENT_MINIMUM_RX_BYTES R4A_NTRIP_CLIENT_RING_BUFFER_BYTES
  dsimp only
  split_ifs <;> omega

/-! ## Claim C10 -/

/-- C10: outside of the `Connected` steady state, the drain-to-receiver
operation is a guarded no-op: it returns 0 bytes written, delivers
nothing, and leaves the ring buffer (head index, tail index and
contents) untouched. -/
theorem C10_remove_data_guard (state transactionSize : Nat) (resp : List Nat)
    (rb : RingBuf) (h : state ≠ NTRIP_CLIENT_CONNECTED) :
    r4aNtripClientRbRemoveData state transactionSize resp rb = (rb, 0, []) := by
  unfold r4aNtripClientRbRemoveData
  rw [if_pos h]

/-- Witness for C10 at the `Off` state. -/
theorem C10_remove_data_guard_witness :
    (NTRIP_CLIENT_OFF ≠ NTRIP_CLIENT_CONNECTED) ∧
      r4aNtripClientRbRemoveData NTRIP_CLIENT_OFF 32 [100] c8state.rb
        = (c8state.rb, 0, []) :=
  ⟨by decide, C10_remove_data_guard NTRIP_CLIENT_OFF 32 [100] c8state.rb (by decide)⟩

/-! ## Claim C7 -/

/-- C7 counterexample: with mount point "MNT", no user, company "C",
product "P", version "V", the request the code builds carries
`User-Agent: NTRIP C_P_V` while the claim's template
(`User-Agent: NTRIP <product>_<version>`) yields `NTRIP P_V`; the byte
strings differ. -/
theorem C7_counterexample :
    r4aNtripClientServerRequest id c7cfg ≠ specServerRequest id c7cfg := by
  decide

/-- C7 amended: the bytes written to the socket after a successful TCP
connect are exactly the request line, then
`User-Agent: NTRIP <company>_<product>_<version>`, then
`Authorization: Basic <base64(user:password)>` when a user is configured
or `Accept: */*` and `Connection: close` otherwise, terminated by a
blank line — for every configuration and every base64 encoder. -/
theorem C7_request_bytes_amended (b64 : List Char → List Char)
    (cfg : NtripRequestConfig) :
    r4aNtripClientServerRequest b64 cfg = specServerRequestAmended b64 cfg := by
  have hH : strL " HTTP/1.0\r\n" = strL " HTTP/1.0" ++ strL "\r\n" := by decide
  have hA : strL "Accept: */*\r\nConnection: close\r\n"
      = strL "Accept: */*\r\nConnection: close" ++ strL "\r\n" := by decide
  unfold r4aNtripClientServerRequest specServerRequestAmended ntripClientCredentials
  by_cases h : cfg.user.length = 0
  · rw [if_pos h, if_neg (by omega)]
    rw [hH, hA]
    simp [List.append_assoc]
  · rw [if_neg h, if_pos h]
    rw [hH]
    simp [List.append_assoc]

/-! ## Claim C8 -/

/-- C8 counterexample: tearing down a connected session whose ring buffer
cursors are 5 and 3 leaves them at 5 and 3 — `r4aNtripClientStop` never
resets `_rbHead`/`_rbTail`, so the claim's "head and tail both equal 0
afterwards" fails. -/
theorem C8_counterexample :
    ¬((((r4aNtripClientStop cfgDefault 0 true c8state).2).rb.head = 0) ∧
      (((r4aNtripClientStop cfgDefault 0 true c8state).2).rb.tail = 0)) := by
  decide

/-- C8 amended: a full teardown (and any other call of
`r4aNtripClientStop`) leaves the ring buffer untouched: head, tail and
contents are unchanged; the indices are zero only from the
zero-initialisation of the global client at start-up, not from
teardown. -/
theorem C8_stop_preserves_ring_buffer (cfg : NtripConfig) (now : Nat)
    (shutdown : Bool) (s : NtripState) :
    ((r4aNtripClientStop cfg now shutdown s).2).rb = s.rb := by
  unfold r4aNtripClientStop
  dsimp only
  split_ifs <;> rfl

/-! ## Supporting lemmas for restart-with-backoff -/

theorem clr_cap_reached (cfg : NtripConfig) (now : Nat) (s : NtripState)
    (h : cfg.backoffCount ≤ s.connectionAttempts) :
    (r4aNtripClientConnectLimitReached cfg now s).1 = true ∧
      ((r4aNtripClientConnectLimitReached cfg now s).2).state = NTRIP_CLIENT_OFF := by
  have hd : decide (s.connectionAttempts ≥ cfg.backoffCount) = true := decide_eq_true h
  by_cases hs : s.state = NTRIP_CLIENT_OFF <;>
    simp [r4aNtripClientConnectLimitReached, r4aNtripClientStop, hd, hs]

theorem clr_below_cap (cfg : NtripConfig) (now : Nat) (s : NtripState)
    (henable : s.enable = true) (h : s.connectionAttempts < cfg.backoffCount) :
    ((r4aNtripClientConnectLimitReached cfg now s).2).state = NTRIP_CLIENT_WAIT_FOR_WIFI ∧
      ((r4aNtripClientConnectLimitReached cfg now s).2).connectionDelayMsec
        = cfg.backoffTable.getD s.connectionAttempts 0 := by
  have hd : decide (s.connectionAttempts ≥ cfg.backoffCount) = false :=
    decide_eq_false (by omega)
  simp [r4aNtripClientConnectLimitReached, r4aNtripClientStop, hd, henable,
    if_neg (by omega : ¬ s.connectionAttempts ≥ cfg.backoffCount)]

theorem stop_backoff_clamp (cfg : NtripConfig) (now : Nat) (s : NtripState)
    (henable : s.enable = true) (h : cfg.backoffCount ≤ s.connectionAttempts) :
    ((r4aNtripClientStop cfg now false s).2).connectionDelayMsec
      = cfg.backoffTable.getD (cfg.backoffCount - 1) 0 := by
  simp [r4aNtripClientStop, henable, if_pos (h : s.connectionAttempts ≥ cfg.backoffCount)]

/-! ## Claim C5 -/

/-- C5: restart-with-backoff for an enabled client.  When the attempt
count has reached the cap (the backoff table length), the limit is
reported and the client goes to `Off`.  Otherwise the connection delay
becomes `backoffTable[min(connectionAttempts, tableLength - 1)]` and the
client goes to wait-for-link.  Moreover the delay computation of the
backoff path clamps to the table's last entry for every attempt count at
or past the end of the table. -/
theorem C5_restart_with_backoff (cfg : NtripConfig) (now : Nat) (s : NtripState)
    (henable : s.enable = true) :
    (cfg.backoffCount ≤ s.connectionAttempts →
      (r4aNtripClientConnectLimitReached cfg now s).1 = true ∧
        ((r4aNtripClientConnectLimitReached cfg now s).2).state = NTRIP_CLIENT_OFF) ∧
    (s.connectionAttempts < cfg.backoffCount →
      ((r4aNtripClientConnectLimitReached cfg now s).2).state = NTRIP_CLIENT_WAIT_FOR_WIFI ∧
        ((r4aNtripClientConnectLimitReached cfg now s).2).connectionDelayMsec
          = cfg.backoffTable.getD (min s.connectionAttempts (cfg.backoffCount - 1)) 0) ∧
    (cfg.backoffCount ≤ s.connectionAttempts →
      ((r4aNtripClientStop cfg now false s).2).connectionDelayMsec
        = cfg.backoffTable.getD (cfg.backoffCount - 1) 0) := by
  refine ⟨fun h => clr_cap_reached cfg now s h, fun h => ?_,
    fun h => stop_backoff_clamp cfg now s henable h⟩
  have hmin : min s.connectionAttempts (cfg.backoffCount - 1) = s.connectionAttempts := by
    omega
  rw [hmin]
  exact clr_below_cap cfg now s henable h

/-- Witness for C5 with a fresh enabled client (0 attempts against the
4-entry default table). -/
theorem C5_restart_with_backoff_witness :
    stateDefault.enable = true ∧
      stateDefault.connectionAttempts < cfgDefault.backoffCount ∧
      ((r4aNtripClientConnectLimitReached cfgDefault 0 stateDefault).2).state
        = NTRIP_CLIENT_WAIT_FOR_WIFI ∧
      ((r4aNtripClientConnectLimitReached cfgDefault 0 stateDefault).2).connectionDelayMsec
        = cfgDefault.backoffTable.getD
            (min stateDefault.connectionAttempts (cfgDefault.backoffCount - 1)) 0 :=
  ⟨by decide, by decide,
    ((C5_restart_with_backoff cfgDefault 0 stateDefault (by decide)).2.1 (by decide)).1,
    ((C5_restart_with_backoff cfgDefault 0 stateDefault (by decide)).2.1 (by decide)).2⟩

/-! ## Supporting lemmas for the update state machine -/

theorem update_off_forced_step (cfg : NtripConfig) (env : NtripEnv) (s : NtripState)
    (h : s.state = NTRIP_CLIENT_OFF) (hf : s.forcedShutdown = true) :
    (r4aNtripClientUpdate cfg env s).state = NTRIP_CLIENT_OFF ∧
      (r4aNtripClientUpdate cfg env s).forcedShutdown = true ∧
      (s.enable = true → (r4aNtripClientUpdate cfg env s).enable = false) := by
  have h0 : ¬(s.enable = false ∧ NTRIP_CLIENT_OFF < s.state) := by
    rintro ⟨-, hlt⟩
    rw [h] at hlt
    exact absurd hlt (by decide)
  have h1 : ¬(env.wifiConnected = false ∧ NTRIP_CLIENT_WAIT_FOR_WIFI < s.state) := by
    rintro ⟨-, hlt⟩
    rw [h] at hlt
    exact absurd hlt (by decide)
  have h2 : ¬(NTRIP_CLIENT_WAIT_RESPONSE < s.state ∧ env.sockConnected = false) := by
    rintro ⟨hlt, -⟩
    rw [h] at hlt
    exact absurd hlt (by decide)
  simp only [r4aNtripClientUpdate]
  rw [if_neg h0, if_neg h1, if_neg h2, h]
  by_cases he : s.enable = true
  · simp [NTRIP_CLIENT_OFF, ntripUpdateOff, he, hf, h]
  · simp [NTRIP_CLIENT_OFF, ntripUpdateOff, he, h, hf]

theorem update_handle_response_401 (cfg : NtripConfig) (env : NtripEnv) (s : NtripState)
    (h : s.state = NTRIP_CLIENT_HANDLE_RESPONSE) (he : s.enable = true)
    (hw : env.wifiConnected = true) (hsock : env.sockConnected = true)
    (h200 : strstrFound s.responseBuffer (strBytes "200") = false)
    (h401 : strstrFound s.responseBuffer (strBytes "401") = true) :
    (r4aNtripClientUpdate cfg env s).state = NTRIP_CLIENT_OFF ∧
      (r4aNtripClientUpdate cfg env s).forcedShutdown = true := by
  have h0 : ¬(s.enable = false ∧ NTRIP_CLIENT_OFF < s.state) := by
    rintro ⟨hen, -⟩
    rw [he] at hen
    exact absurd hen (by decide)
  have h1 : ¬(env.wifiConnected = false ∧ NTRIP_CLIENT_WAIT_FOR_WIFI < s.state) := by
    rintro ⟨hwc, -⟩
    rw [hw] at hwc
    exact absurd hwc (by decide)
  have h2 : ¬(NTRIP_CLIENT_WAIT_RESPONSE < s.state ∧ env.sockConnected = false) := by
    rintro ⟨-, hsc⟩
    rw [hsock] at hsc
    exact absurd hsc (by decide)
  have hc : classifyResponse s.responseBuffer s.responseLength
      = CasterOutcome.unauthorized := by
    unfold classifyResponse
    rw [h200, h401]
    simp
  simp only [r4aNtripClientUpdate]
  rw [if_neg h0, if_neg h1, if_neg h2, h]
  simp [NTRIP_CLIENT_HANDLE_RESPONSE, ntripUpdateHandleResponse, hc,
    r4aNtripClientForceShutdown, r4aNtripClientStop, h, NTRIP_CLIENT_OFF]

theorem runTicks_off_forced (cfg : NtripConfig) :
    ∀ (ticks : List (Bool × NtripEnv)) (s : NtripState),
      s.state = NTRIP_CLIENT_OFF → s.forcedShutdown = true →
      (ntripRunTicks cfg ticks s).state = NTRIP_CLIENT_OFF ∧
        (ntripRunTicks cfg ticks s).forcedShutdown = true := by
  intro ticks
  induction ticks with
  | nil => intro s h hf; exact ⟨h, hf⟩
  | cons t rest ih =>
    intro s h hf
    obtain ⟨en, env⟩ := t
    have hstep := update_off_forced_step cfg env { s with enable := en } h hf
    exact ih _ hstep.1 hstep.2.1

/-! ## Claim C6 -/

/-- C6: the forced-shutdown flag latches.  (1) On any tick of an `Off`
client with the flag set and the enable flag set, the state stays `Off`,
the flag stays set, and the enable request is rejected (enable is
cleared).  (2) Over any supervised run of ticks — the operator may set
the enable flag before each tick — an `Off` client with the flag set
stays `Off` with the flag set, so it never re-enters wait-for-link until
the operator clears the flag.  (3) A captured "401" caster response
(without "200") drives the client to `Off` with the flag set. -/
theorem C6_forced_shutdown_latches :
    (∀ (cfg : NtripConfig) (env : NtripEnv) (s : NtripState),
      s.state = NTRIP_CLIENT_OFF → s.forcedShutdown = true → s.enable = true →
        (r4aNtripClientUpdate cfg env s).state = NTRIP_CLIENT_OFF ∧
          (r4aNtripClientUpdate cfg env s).forcedShutdown = true ∧
          (r4aNtripClientUpdate cfg env s).enable = false) ∧
    (∀ (cfg : NtripConfig) (ticks : List (Bool × NtripEnv)) (s : NtripState),
      s.state = NTRIP_CLIENT_OFF → s.forcedShutdown = true →
        (ntripRunTicks cfg ticks s).state = NTRIP_CLIENT_OFF ∧
          (ntripRunTicks cfg ticks s).forcedShutdown = true) ∧
    (∀ (cfg : NtripConfig) (env : NtripEnv) (s : NtripState),
      s.state = NTRIP_CLIENT_HANDLE_RESPONSE → s.enable = true →
      env.wifiConnected = true → env.sockConnected = true →
      strstrFound s.responseBuffer (strBytes "200") = false →
      strstrFound s.responseBuffer (strBytes "401") = true →
        (r4aNtripClientUpdate cfg env s).state = NTRIP_CLIENT_OFF ∧
          (r4aNtripClientUpdate cfg env s).forcedShutdown = true) := by
  refine ⟨fun cfg env s h hf he => ?_, fun cfg ticks s h hf => runTicks_off_forced cfg ticks s h hf,
    fun cfg env s h he hw hsock h200 h401 =>
      update_handle_response_401 cfg env s h he hw hsock h200 h401⟩
  obtain ⟨hst, hfs, hen⟩ := update_off_forced_step cfg env s h hf
  exact ⟨hst, hfs, hen he⟩

/-- Witness for C6: the "401 Unauthorized" response forces the shutdown,
and two further enabled ticks leave the client `Off` with the flag set. -/
theorem C6_forced_shutdown_latches_witness :
    c6state.state = NTRIP_CLIENT_HANDLE_RESPONSE ∧
      strstrFound c6state.responseBuffer (strBytes "401") = true ∧
      (r4aNtripClientUpdate cfgDefault c9env c6state).state = NTRIP_CLIENT_OFF ∧
      (r4aNtripClientUpdate cfgDefault c9env c6state).forcedShutdown = true ∧
      (ntripRunTicks cfgDefault [(true, c9env), (true, c9env)]
          (r4aNtripClientUpdate cfgDefault c9env c6state)).state = NTRIP_CLIENT_OFF ∧
      (ntripRunTicks cfgDefault [(true, c9env), (true, c9env)]
          (r4aNtripClientUpdate cfgDefault c9env c6state)).forcedShutdown = true := by
  have h1 := (C6_forced_shutdown_latches.2.2 cfgDefault c9env c6state (by decide) (by decide)
    (by decide) (by decide) (by decide) (by decide))
  have h2 := C6_forced_shutdown_latches.2.1 cfgDefault [(true, c9env), (true, c9env)]
    (r4aNtripClientUpdate cfgDefault c9env c6state) h1.1 h1.2
  exact ⟨by decide, by decide, h1.1, h1.2, h2.1, h2.2⟩

/-! ## Claim C9 -/

/-- C9 counterexample: with the documented defaults (quiet timeout
1000 ms below the response timeout 10000 ms), a client in `WaitResponse`
that has received no bytes at all and whose elapsed time (20000 ms) is
past the response timeout does not take the restart-with-backoff path on
that tick: the earlier quiet-timeout branch fires first and the state
becomes `HandleResponse`, not `WaitForLink` or `Off`. -/
theorem C9_counterexample :
    c9state.state = NTRIP_CLIENT_WAIT_RESPONSE ∧
      c9state.responseLength = 0 ∧
      c9env.sockData = [] ∧
      cfgDefault.responseTimeout < u32sub c9env.now c9state.timer ∧
      (r4aNtripClientUpdate cfgDefault c9env c9state).state
        = NTRIP_CLIENT_HANDLE_RESPONSE ∧
      (r4aNtripClientUpdate cfgDefault c9env c9state).state
        ≠ NTRIP_CLIENT_WAIT_FOR_WIFI ∧
      (r4aNtripClientUpdate cfgDefault c9env c9state).state ≠ NTRIP_CLIENT_OFF := by
  decide

/-- C9 amended: in `WaitResponse` with no bytes received at all, when the
elapsed time strictly exceeds the response timeout and the end-of-header
quiet timeout has not yet fired (the quiet branch has priority in the
source), the client takes the restart-with-backoff path on that tick:
`Off` when the attempt cap is reached, otherwise `WaitForLink` with the
delay drawn from the backoff table. -/
theorem C9_wait_response_timeout_amended (cfg : NtripConfig) (env : NtripEnv)
    (s : NtripState)
    (h : s.state = NTRIP_CLIENT_WAIT_RESPONSE) (he : s.enable = true)
    (hw : env.wifiConnected = true) (hdata : env.sockData = [])
    (hlen : s.responseLength = 0)
    (ht : cfg.responseTimeout < u32sub env.now s.timer)
    (hq : u32sub env.now s.timer < cfg.responseDone) :
    (cfg.backoffCount ≤ s.connectionAttempts →
      (r4aNtripClientUpdate cfg env s).state = NTRIP_CLIENT_OFF) ∧
    (s.connectionAttempts < cfg.backoffCount →
      (r4aNtripClientUpdate cfg env s).state = NTRIP_CLIENT_WAIT_FOR_WIFI ∧
        (r4aNtripClientUpdate cfg env s).connectionDelayMsec
          = cfg.backoffTable.getD s.connectionAttempts 0) := by
  have h0 : ¬(s.enable = false ∧ NTRIP_CLIENT_OFF < s.state) := by
    rintro ⟨hen, -⟩
    rw [he] at hen
    exact absurd hen (by decide)
  have h1 : ¬(env.wifiConnected = false ∧ NTRIP_CLIENT_WAIT_FOR_WIFI < s.state) := by
    rintro ⟨hwc, -⟩
    rw [hw] at hwc
    exact absurd hwc (by decide)
  have h2 : ¬(NTRIP_CLIENT_WAIT_RESPONSE < s.state ∧ env.sockConnected = false) := by
    rintro ⟨hlt, -⟩
    rw [h] at hlt
    exact absurd hlt (by decide)
  have hnq : ¬(u32sub env.now s.timer ≥ cfg.responseDone) := by omega
  have hupd : r4aNtripClientUpdate cfg env s
      = (r4aNtripClientConnectLimitReached cfg env.now s).2 := by
    simp only [r4aNtripClientUpdate]
    rw [if_neg h0, if_neg h1, if_neg h2, h]
    simp [NTRIP_CLIENT_WAIT_RESPONSE, ntripUpdateWaitResponse, hdata, hnq, hlen, ht]
  refine ⟨fun hc => ?_, fun hc => ?_⟩
  · rw [hupd]
    exact (clr_cap_reached cfg env.now s hc).2
  · rw [hupd]
    exact clr_below_cap cfg env.now s he hc

/-- Witness for C9 (amended) with a quiet timeout above the response
timeout: one attempt so far against the 4-entry table, so the tick ends
in `WaitForLink` with the table's second delay. -/
theorem C9_wait_response_timeout_witness :
    c9state.connectionAttempts < c9cfg.backoffCount ∧
      (r4aNtripClientUpdate c9cfg c9env c9state).state = NTRIP_CLIENT_WAIT_FOR_WIFI ∧
      (r4aNtripClientUpdate c9cfg c9env c9state).connectionDelayMsec
        = c9cfg.backoffTable.getD c9state.connectionAttempts 0 :=
  ⟨by decide,
    (C9_wait_response_timeout_amended c9cfg c9env c9state (by decide) (by decide)
        (by decide) (by decide) (by decide) (by decide) (by decide)).2 (by decide)⟩

/-! ## Supporting lemmas for the ring buffer -/

theorem rbBytesAvailable_le (rb : RingBuf) :
    rbBytesAvailable rb ≤ R4A_NTRIP_CLIENT_RING_BUFFER_BYTES - 1 := by
  unfold rbBytesAvailable R4A_NTRIP_CLIENT_RING_BUFFER_BYTES
  omega

theorem rbBytesFree_eq (rb : RingBuf) (h : rbWF rb) :
    rbBytesFree rb = (R4A_NTRIP_CLIENT_RING_BUFFER_BYTES - 1) - rbBytesAvailable rb := by
  obtain ⟨h1, h2⟩ := h
  unfold rbBytesFree rbBytesAvailable R4A_NTRIP_CLIENT_RING_BUFFER_BYTES at *
  omega

theorem rb_head_eq (rb : RingBuf) (h : rbWF rb) :
    rb.head = (rb.tail + rbBytesAvailable rb) % R4A_NTRIP_CLIENT_RING_BUFFER_BYTES := by
  obtain ⟨h1, h2⟩ := h
  unfold rbBytesAvailable R4A_NTRIP_CLIENT_RING_BUFFER_BYTES at *
  omega

theorem writeRun_eq_of_lt (data : List Nat) :
    ∀ (buf : Nat → Nat) (start x : Nat), x < start → writeRun buf start data x = buf x := by
  induction data with
  | nil => intro buf start x _; rfl
  | cons b rest ih =>
    intro buf start x hx
    show writeRun (Function.update buf start b) (start + 1) rest x = buf x
    rw [ih _ (start + 1) x (by omega)]
    exact Function.update_noteq (show x ≠ start by omega) b buf

theorem writeRun_eq_of_ge (data : List Nat) :
    ∀ (buf : Nat → Nat) (start x : Nat), start + data.length ≤ x →
      writeRun buf start data x = buf x := by
  induction data with
  | nil => intro buf start x _; rfl
  | cons b rest ih =>
    intro buf start x hx
    simp only [List.length_cons] at hx
    show writeRun (Function.update buf start b) (start + 1) rest x = buf x
    rw [ih _ (start + 1) x (by omega)]
    exact Function.update_noteq (show x ≠ start by omega) b buf

theorem writeRun_get (data : List Nat) :
    ∀ (buf : Nat → Nat) (start k : Nat), k < data.length →
      writeRun buf start data (start + k) = data.getD k 0 := by
  induction data with
  | nil => intro buf start k hk; simp at hk
  | cons b rest ih =>
    intro buf start k hk
    show writeRun (Function.update buf start b) (start + 1) rest (start + k) = _
    cases k with
    | zero =>
      rw [writeRun_eq_of_lt rest _ (start + 1) (start + 0) (by omega)]
      simp [Function.update]
    | succ m =>
      have : start + (m + 1) = (start + 1) + m := by omega
      rw [this, ih _ (start + 1) m (by simpa using hk)]
      simp

theorem range_map_getD (l : List Nat) :
    ∀ n : Nat, n ≤ l.length → (List.range n).map (fun k => l.getD k 0) = l.take n := by
  induction l with
  | nil =>
    intro n hn
    simp at hn
    simp [hn]
  | cons a t ih =>
    intro n hn
    cases n with
    | zero => simp
    | succ m =>
      rw [List.range_succ_eq_map]
      simp only [List.map_cons, List.map_map, List.take_succ_cons]
      have : ((fun k => (a :: t).getD k 0) ∘ Nat.succ) = fun k => t.getD k 0 := by
        funext k
        simp
      rw [this, ih m (by simpa using hn)]
      simp

theorem getD_take (l : List Nat) :
    ∀ (n k : Nat), k < n → (l.take n).getD k 0 = l.getD k 0 := by
  induction l with
  | nil => intro n k _; simp
  | cons a t ih =>
    intro n k hkn
    cases n with
    | zero => omega
    | succ m =>
      cases k with
      | zero => simp
      | succ j => simpa using ih m j (by omega)

theorem getD_drop (l : List Nat) :
    ∀ (c m : Nat), (l.drop c).getD m 0 = l.getD (c + m) 0 := by
  induction l with
  | nil => intro c m; simp
  | cons a t ih =>
    intro c m
    cases c with
    | zero => simp
    | succ d => simpa [Nat.succ_add] using ih d m

theorem rbAddData_eq (rb : RingBuf) (data : List Nat) (h : rbWF rb)
    (hfree : rbBytesFree rb ≠ 0) :
    r4aNtripClientRbAddData rb data =
      ({ head := (rb.head + min data.length (rbBytesFree rb)) %
           R4A_NTRIP_CLIENT_RING_BUFFER_BYTES,
         tail := rb.tail,
         buf := writeRun
           (writeRun rb.buf rb.head
             (data.take (min (min data.length (rbBytesFree rb))
               (R4A_NTRIP_CLIENT_RING_BUFFER_BYTES - rb.head)))) 0
           ((data.take (min data.length (rbBytesFree rb))).drop
             (min (min data.length (rbBytesFree rb))
               (R4A_NTRIP_CLIENT_RING_BUFFER_BYTES - rb.head))) },
       min data.length (rbBytesFree rb)) := by
  obtain ⟨hh, ht⟩ := h
  have hfr := rbBytesFree_eq rb ⟨hh, ht⟩
  have hav := rbBytesAvailable_le rb
  have hhead : (if rb.head + min data.length (rbBytesFree rb) ≥
        R4A_NTRIP_CLIENT_RING_BUFFER_BYTES
      then rb.head + min data.length (rbBytesFree rb) -
        R4A_NTRIP_CLIENT_RING_BUFFER_BYTES
      else rb.head + min data.length (rbBytesFree rb)) =
      (rb.head + min data.length (rbBytesFree rb)) %
        R4A_NTRIP_CLIENT_RING_BUFFER_BYTES := by
    simp only [R4A_NTRIP_CLIENT_RING_BUFFER_BYTES] at *
    split_ifs <;> omega
  simp only [r4aNtripClientRbAddData]
  rw [if_neg hfree, hhead]

theorem rbAddData_spec (rb : RingBuf) (data : List Nat) (h : rbWF rb) :
    (r4aNtripClientRbAddData rb data).2 = min data.length (rbBytesFree rb) ∧
    (r4aNtripClientRbAddData rb data).1.tail = rb.tail ∧
    rbWF (r4aNtripClientRbAddData rb data).1 ∧
    rbBytesAvailable (r4aNtripClientRbAddData rb data).1
      = rbBytesAvailable rb + min data.length (rbBytesFree rb) ∧
    rbPending (r4aNtripClientRbAddData rb data).1
      = rbPending rb ++ data.take (min data.length (rbBytesFree rb)) ∧
    (∀ x, R4A_NTRIP_CLIENT_RING_BUFFER_BYTES ≤ x →
      (r4aNtripClientRbAddData rb data).1.buf x = rb.buf x) := by
  obtain ⟨hh, ht⟩ := h
  have hN : R4A_NTRIP_CLIENT_RING_BUFFER_BYTES = 8192 := rfl
  have hh8 : rb.head < 8192 := hN ▸ hh
  have ht8 : rb.tail < 8192 := hN ▸ ht
  have havail : rbBytesAvailable rb = (rb.head + 8192 - rb.tail) % 8192 := by
    simp [rbBytesAvailable, hN]
  have hfree_eq : rbBytesFree rb = 8191 - rbBytesAvailable rb := by
    simpa [hN] using rbBytesFree_eq rb ⟨hh, ht⟩
  by_cases hfree : rbBytesFree rb = 0
  · have hmin : min data.length (rbBytesFree rb) = 0 := by omega
    have heq : r4aNtripClientRbAddData rb data = (rb, 0) := by
      simp only [r4aNtripClientRbAddData]
      rw [if_pos hfree]
    rw [heq, hmin]
    exact ⟨rfl, rfl, ⟨hh, ht⟩, by simp, by simp, fun x _ => rfl⟩
  · rw [rbAddData_eq rb data ⟨hh, ht⟩ hfree]
    simp only [hN]
    set acc := min data.length (rbBytesFree rb) with hacc_def
    set c := min acc (8192 - rb.head) with hc_def
    have hacc_len : acc ≤ data.length := Nat.min_le_left _ _
    have hacc_free : acc ≤ rbBytesFree rb := Nat.min_le_right _ _
    have hacc_bound : acc ≤ 8191 - rbBytesAvailable rb := by omega
    have hc_acc : c ≤ acc := Nat.min_le_left _ _
    have hc_head : c ≤ 8192 - rb.head := Nat.min_le_right _ _
    have hc_or : c = acc ∨ c = 8192 - rb.head := min_choice _ _
    have hpart1_len : (data.take c).length = c := by
      rw [List.length_take]; omega
    have hpart2_len : ((data.take acc).drop c).length = acc - c := by
      rw [List.length_drop, List.length_take]; omega
    have hold : ∀ i, i < rbBytesAvailable rb →
        writeRun (writeRun rb.buf rb.head (data.take c)) 0 ((data.take acc).drop c)
          ((rb.tail + i) % 8192) = rb.buf ((rb.tail + i) % 8192) := by
      intro i hi
      rw [writeRun_eq_of_ge ((data.take acc).drop c) _ 0 _ (by rw [hpart2_len]; omega)]
      have hx_lt_or : (rb.tail + i) % 8192 < rb.head ∨
          rb.head + c ≤ (rb.tail + i) % 8192 := by omega
      rcases hx_lt_or with hlt | hge
      · exact writeRun_eq_of_lt _ _ _ _ hlt
      · exact writeRun_eq_of_ge (data.take c) _ rb.head _ (by rw [hpart1_len]; omega)
    have hnew : ∀ k, k < acc →
        writeRun (writeRun rb.buf rb.head (data.take c)) 0 ((data.take acc).drop c)
          ((rb.head + k) % 8192) = data.getD k 0 := by
      intro k hk
      by_cases hkc : k < c
      · have hx : (rb.head + k) % 8192 = rb.head + k := by omega
        rw [hx]
        rw [writeRun_eq_of_ge ((data.take acc).drop c) _ 0 _ (by rw [hpart2_len]; omega)]
        rw [writeRun_get (data.take c) rb.buf rb.head k (by rw [hpart1_len]; exact hkc)]
        exact getD_take data c k hkc
      · have hceq : c = 8192 - rb.head := by omega
        have hx : (rb.head + k) % 8192 = k - c := by omega
        rw [hx]
        have hg := writeRun_get ((data.take acc).drop c)
          (writeRun rb.buf rb.head (data.take c)) 0 (k - c)
          (by rw [hpart2_len]; omega)
        rw [Nat.zero_add] at hg
        rw [hg, getD_drop]
        have hck : c + (k - c) = k := by omega
        rw [hck]
        exact getD_take data acc k hk
    have havail2 : ∀ buf0 : Nat → Nat,
        rbBytesAvailable { head := (rb.head + acc) % 8192, tail := rb.tail, buf := buf0 }
          = rbBytesAvailable rb + acc := by
      intro buf0
      simp only [rbBytesAvailable, hN]
      omega
    refine ⟨trivial, trivial, ⟨?_, ht⟩, ?_, ?_, ?_⟩
    · show (rb.head + acc) % 8192 < R4A_NTRIP_CLIENT_RING_BUFFER_BYTES
      rw [hN]
      omega
    · exact havail2 _
    · show rbPending _ = rbPending rb ++ data.take acc
      unfold rbPending
      rw [havail2]
      simp only [hN]
      rw [List.range_add (rbBytesAvailable rb) acc, List.map_append]
      congr 1
      · exact List.map_congr_left fun i hi => hold i (List.mem_range.mp hi)
      · rw [List.map_map]
        calc (List.range acc).map
              ((fun i => writeRun (writeRun rb.buf rb.head (data.take c)) 0
                  ((data.take acc).drop c) ((rb.tail + i) % 8192)) ∘
                (fun x => rbBytesAvailable rb + x))
            = (List.range acc).map (fun k => data.getD k 0) := by
              apply List.map_congr_left
              intro k hk
              have hidx : (rb.tail + (rbBytesAvailable rb + k)) % 8192
                  = (rb.head + k) % 8192 := by omega
              simp only [Function.comp]
              rw [hidx]
              exact hnew k (List.mem_range.mp hk)
          _ = data.take acc := range_map_getD data acc hacc_len
    · intro x hx
      show writeRun (writeRun rb.buf rb.head (data.take c)) 0
          ((data.take acc).drop c) x = rb.buf x
      rw [writeRun_eq_of_ge ((data.take acc).drop c) _ 0 _ (by rw [hpart2_len]; omega)]
      exact writeRun_eq_of_ge (data.take c) _ rb.head _ (by rw [hpart1_len]; omega)

theorem rbBytesToPush_le (bytesAvailable bytesToTail transactionSize : Int) :
    rbBytesToPush bytesAvailable bytesToTail transactionSize ≤ bytesAvailable ∧
      rbBytesToPush bytesAvailable bytesToTail transactionSize ≤ bytesToTail := by
  unfold rbBytesToPush R4A_NTRIP_CLIENT_MINIMUM_RX_BYTES
  dsimp only
  split_ifs <;> omega

theorem rb_advance_tail_spec (rb : RingBuf) (p t2 : Nat) (h : rbWF rb)
    (hp1 : p ≤ rbBytesAvailable rb) (hp2 : rb.tail + p ≤ 8192)
    (ht2 : t2 = (rb.tail + p) % 8192) :
    rbWF { head := rb.head, tail := t2, buf := rb.buf } ∧
    rbBytesAvailable { head := rb.head, tail := t2, buf := rb.buf }
      = rbBytesAvailable rb - p ∧
    (List.range p).map (fun i => rb.buf (rb.tail + i)) = (rbPending rb).take p ∧
    rbPending { head := rb.head, tail := t2, buf := rb.buf }
      = (rbPending rb).drop p := by
  obtain ⟨hh, ht⟩ := h
  have hN : R4A_NTRIP_CLIENT_RING_BUFFER_BYTES = 8192 := rfl
  have hh8 : rb.head < 8192 := hN ▸ hh
  have ht8 : rb.tail < 8192 := hN ▸ ht
  have havail : rbBytesAvailable rb = (rb.head + 8192 - rb.tail) % 8192 := by
    simp [rbBytesAvailable, hN]
  have havail2 : rbBytesAvailable { head := rb.head, tail := t2, buf := rb.buf }
      = rbBytesAvailable rb - p := by
    simp only [rbBytesAvailable, hN]
    omega
  refine ⟨⟨hh, by show t2 < R4A_NTRIP_CLIENT_RING_BUFFER_BYTES; rw [hN]; omega⟩,
    havail2, ?_, ?_⟩
  · unfold rbPending
    rw [← List.map_take, List.take_range]
    have hmin : min p (rbBytesAvailable rb) = p := by omega
    rw [hmin]
    apply List.map_congr_left
    intro i hi
    have hi2 : i < p := List.mem_range.mp hi
    have : (rb.tail + i) % R4A_NTRIP_CLIENT_RING_BUFFER_BYTES = rb.tail + i := by
      rw [hN]
      omega
    rw [this]
  · unfold rbPending
    rw [havail2]
    have hdrop : ((List.range (rbBytesAvailable rb)).map
          (fun i => rb.buf ((rb.tail + i) % R4A_NTRIP_CLIENT_RING_BUFFER_BYTES))).drop p
        = (List.range (rbBytesAvailable rb - p)).map
            ((fun i => rb.buf ((rb.tail + i) % R4A_NTRIP_CLIENT_RING_BUFFER_BYTES)) ∘
              (fun k => p + k)) := by
      conv_lhs => rw [show rbBytesAvailable rb = p + (rbBytesAvailable rb - p) from by omega]
      rw [List.range_add p (rbBytesAvailable rb - p), List.map_append,
        List.drop_left' (by simp), List.map_map]
    rw [hdrop]
    apply List.map_congr_left
    intro k hk
    simp only [Function.comp]
    have hidx : (rb.tail + (p + k)) % R4A_NTRIP_CLIENT_RING_BUFFER_BYTES
        = (t2 + k) % R4A_NTRIP_CLIENT_RING_BUFFER_BYTES := by
      rw [hN]
      omega
    rw [hidx]

theorem rbRemoveLoop_cons (tx r : Nat) (rest : List Nat) (rb : RingBuf) (avail : Nat) :
    rbRemoveLoop tx (r :: rest) rb avail =
      if avail ≥ 2 * R4A_NTRIP_CLIENT_MINIMUM_RX_BYTES then
        let bytesToPush := (rbBytesToPush (avail : Int)
          ((R4A_NTRIP_CLIENT_RING_BUFFER_BYTES : Int) - (rb.tail : Int)) (tx : Int)).toNat
        let bytesPushed := min r bytesToPush
        if bytesPushed = 0 then (rb, 0, [])
        else
          let res := rbRemoveLoop tx rest
            { head := rb.head,
              tail := if rb.tail + bytesPushed ≥ R4A_NTRIP_CLIENT_RING_BUFFER_BYTES
                      then rb.tail + bytesPushed - R4A_NTRIP_CLIENT_RING_BUFFER_BYTES
                      else rb.tail + bytesPushed,
              buf := rb.buf } (avail - bytesPushed)
          (res.1, bytesPushed + res.2.1,
            (List.range bytesPushed).map (fun i => rb.buf (rb.tail + i)) ++ res.2.2)
      else (rb, 0, []) := rfl

theorem rbRemoveLoop_spec (tx : Nat) :
    ∀ (resp : List Nat) (rb : RingBuf) (avail : Nat), rbWF rb →
      avail = rbBytesAvailable rb →
      rbWF (rbRemoveLoop tx resp rb avail).1 ∧
      (rbRemoveLoop tx resp rb avail).2.1 ≤ rbBytesAvailable rb ∧
      (rbRemoveLoop tx resp rb avail).2.2
        = (rbPending rb).take (rbRemoveLoop tx resp rb avail).2.1 ∧
      rbPending (rbRemoveLoop tx resp rb avail).1
        = (rbPending rb).drop (rbRemoveLoop tx resp rb avail).2.1 ∧
      rbBytesAvailable (rbRemoveLoop tx resp rb avail).1
        = rbBytesAvailable rb - (rbRemoveLoop tx resp rb avail).2.1 := by
  intro resp
  induction resp with
  | nil =>
    intro rb avail hwf hav
    exact ⟨hwf, by simp [rbRemoveLoop], by simp [rbRemoveLoop], by simp [rbRemoveLoop],
      by simp [rbRemoveLoop]⟩
  | cons r rest ih =>
    intro rb avail hwf hav
    by_cases h64 : avail ≥ 2 * R4A_NTRIP_CLIENT_MINIMUM_RX_BYTES
    · rw [rbRemoveLoop_cons, if_pos h64]
      dsimp only
      set q := (rbBytesToPush (avail : Int)
        ((R4A_NTRIP_CLIENT_RING_BUFFER_BYTES : Int) - (rb.tail : Int)) (tx : Int)).toNat
        with hq
      set p := min r q with hp_def
      by_cases hp0 : p = 0
      · rw [if_pos hp0]
        exact ⟨hwf, by simp, by simp, by simp, by simp⟩
      · rw [if_neg hp0]
        have hN : R4A_NTRIP_CLIENT_RING_BUFFER_BYTES = 8192 := rfl
        have hNI : (R4A_NTRIP_CLIENT_RING_BUFFER_BYTES : Int) = 8192 := by
          rw [hN]; norm_num
        obtain ⟨hh, ht⟩ := hwf
        have hh8 : rb.head < 8192 := hN ▸ hh
        have ht8 : rb.tail < 8192 := hN ▸ ht
        have hle := rbBytesToPush_le (avail : Int)
          ((R4A_NTRIP_CLIENT_RING_BUFFER_BYTES : Int) - (rb.tail : Int)) (tx : Int)
        have hq_avail : q ≤ avail := by omega
        have hq_tail : rb.tail + q ≤ 8192 := by omega
        have hp_q : p ≤ q := Nat.min_le_right _ _
        have hp_avail : p ≤ rbBytesAvailable rb := by omega
        have hp_tail : rb.tail + p ≤ 8192 := by omega
        set t2 := if rb.tail + p ≥ R4A_NTRIP_CLIENT_RING_BUFFER_BYTES
                  then rb.tail + p - R4A_NTRIP_CLIENT_RING_BUFFER_BYTES
                  else rb.tail + p with ht2_def
        have ht2 : t2 = (rb.tail + p) % 8192 := by
          rw [ht2_def, hN]
          split_ifs <;> omega
        have hadv := rb_advance_tail_spec rb p t2 ⟨hh, ht⟩ hp_avail hp_tail ht2
        have hres := ih { head := rb.head, tail := t2, buf := rb.buf }
          (avail - p) hadv.1 (by rw [hadv.2.1]; omega)
        refine ⟨hres.1, ?_, ?_, ?_, ?_⟩
        · show p + (rbRemoveLoop tx rest
              { head := rb.head, tail := t2, buf := rb.buf } (avail - p)).2.1
            ≤ rbBytesAvailable rb
          have h1 := hres.2.1
          rw [hadv.2.1] at h1
          omega
        · show (List.range p).map (fun i => rb.buf (rb.tail + i)) ++
              (rbRemoveLoop tx rest { head := rb.head, tail := t2, buf := rb.buf }
                (avail - p)).2.2 = _
          rw [hadv.2.2.1, hres.2.2.1, hadv.2.2.2, List.take_add]
        · show rbPending (rbRemoveLoop tx rest
              { head := rb.head, tail := t2, buf := rb.buf } (avail - p)).1 = _
          rw [hres.2.2.2.1, hadv.2.2.2, List.drop_drop]
        · show rbBytesAvailable (rbRemoveLoop tx rest
              { head := rb.head, tail := t2, buf := rb.buf } (avail - p)).1
            = rbBytesAvailable rb - (p + (rbRemoveLoop tx rest
              { head := rb.head, tail := t2, buf := rb.buf } (avail - p)).2.1)
          rw [hres.2.2.2.2, hadv.2.1]
          have h1 := hres.2.1
          rw [hadv.2.1] at h1
          omega
    · rw [rbRemoveLoop_cons, if_neg h64]
      exact ⟨hwf, by simp, by simp, by simp, by simp⟩

theorem rbPending_length (rb : RingBuf) : (rbPending rb).length = rbBytesAvailable rb := by
  unfold rbPending
  rw [List.length_map, List.length_range]

theorem rbRemoveData_spec (st tx : Nat) (resp : List Nat) (rb : RingBuf) (h : rbWF rb) :
    rbWF (r4aNtripClientRbRemoveData st tx resp rb).1 ∧
    (r4aNtripClientRbRemoveData st tx resp rb).2.1 ≤ rbBytesAvailable rb ∧
    (r4aNtripClientRbRemoveData st tx resp rb).2.2
      = (rbPending rb).take (r4aNtripClientRbRemoveData st tx resp rb).2.1 ∧
    rbPending (r4aNtripClientRbRemoveData st tx resp rb).1
      = (rbPending rb).drop (r4aNtripClientRbRemoveData st tx resp rb).2.1 ∧
    rbBytesAvailable (r4aNtripClientRbRemoveData st tx resp rb).1
      = rbBytesAvailable rb - (r4aNtripClientRbRemoveData st tx resp rb).2.1 := by
  unfold r4aNtripClientRbRemoveData
  split_ifs with hst
  · exact ⟨h, by simp, by simp, by simp, by simp⟩
  · exact rbRemoveLoop_spec tx resp rb (rbBytesAvailable rb) h rfl

theorem rbRunTrace_write (rb : RingBuf) (data : List Nat) (rest : List RbEvent) :
    rbRunTrace rb (RbEvent.write data :: rest) =
      ((rbRunTrace (r4aNtripClientRbAddData rb data).1 rest).1,
       data ++ (rbRunTrace (r4aNtripClientRbAddData rb data).1 rest).2.1,
       (rbRunTrace (r4aNtripClientRbAddData rb data).1 rest).2.2) := rfl

theorem rbRunTrace_drain (rb : RingBuf) (st tx : Nat) (resp : List Nat)
    (rest : List RbEvent) :
    rbRunTrace rb (RbEvent.drain st tx resp :: rest) =
      ((rbRunTrace (r4aNtripClientRbRemoveData st tx resp rb).1 rest).1,
       (rbRunTrace (r4aNtripClientRbRemoveData st tx resp rb).1 rest).2.1,
       (r4aNtripClientRbRemoveData st tx resp rb).2.2 ++
         (rbRunTrace (r4aNtripClientRbRemoveData st tx resp rb).1 rest).2.2) := rfl

theorem rbTrace_invariant :
    ∀ (ops : List RbEvent) (rb : RingBuf) (written delivered : Nat), rbWF rb →
      written = delivered + rbBytesAvailable rb →
      rbTraceOK written delivered rb ops →
      rbWF (rbRunTrace rb ops).1 ∧
      (rbRunTrace rb ops).2.2 ++ rbPending (rbRunTrace rb ops).1
        = rbPending rb ++ (rbRunTrace rb ops).2.1 ∧
      written + (rbRunTrace rb ops).2.1.length
        = (delivered + (rbRunTrace rb ops).2.2.length) +
            rbBytesAvailable (rbRunTrace rb ops).1 := by
  intro ops
  induction ops with
  | nil =>
    intro rb written delivered hwf hw _
    exact ⟨hwf, by simp [rbRunTrace], by simp [rbRunTrace]; omega⟩
  | cons ev rest ih =>
    intro rb written delivered hwf hw hok
    cases ev with
    | write data =>
      obtain ⟨hbound, hok2⟩ := hok
      have hspec := rbAddData_spec rb data hwf
      have hfree := rbBytesFree_eq rb hwf
      have havle := rbBytesAvailable_le rb
      have hN : R4A_NTRIP_CLIENT_RING_BUFFER_BYTES = 8192 := rfl
      rw [hN] at hfree havle hbound
      have hacc : min data.length (rbBytesFree rb) = data.length := by omega
      rw [hacc] at hspec
      have htake : data.take data.length = data := List.take_length data
      rw [htake] at hspec
      have hres := ih (r4aNtripClientRbAddData rb data).1 (written + data.length)
        delivered hspec.2.2.1
        (by rw [hspec.2.2.2.1]; omega) hok2
      rw [rbRunTrace_write rb data rest]
      dsimp only
      refine ⟨hres.1, ?_, ?_⟩
      · rw [hres.2.1, hspec.2.2.2.2.1, List.append_assoc]
      · have h2 := hres.2.2
        rw [List.length_append]
        omega
    | drain st tx resp =>
      have hspec := rbRemoveData_spec st tx resp rb hwf
      have hok2 : rbTraceOK written
          (delivered + (r4aNtripClientRbRemoveData st tx resp rb).2.1)
          (r4aNtripClientRbRemoveData st tx resp rb).1 rest := hok
      have hres := ih (r4aNtripClientRbRemoveData st tx resp rb).1 written
        (delivered + (r4aNtripClientRbRemoveData st tx resp rb).2.1) hspec.1
        (by rw [hspec.2.2.2.2]; omega) hok2
      have hdlen : (r4aNtripClientRbRemoveData st tx resp rb).2.2.length
          = (r4aNtripClientRbRemoveData st tx resp rb).2.1 := by
        rw [hspec.2.2.1, List.length_take, rbPending_length]
        have := hspec.2.1
        omega
      rw [rbRunTrace_drain rb st tx resp rest]
      dsimp only
      refine ⟨hres.1, ?_, ?_⟩
      · rw [List.append_assoc, hres.2.1, hspec.2.2.2.1, ← List.append_assoc,
          hspec.2.2.1, List.take_append_drop]
      · have h2 := hres.2.2
        rw [List.length_append, hdlen]
        omega

/-! ## Claim C2 -/

/-- C2: FIFO correctness of the ring buffer.  For any interleaved
sequence of writes and drains in which the running total of bytes
written never exceeds the bytes already drained plus `capacity - 1`
(8191) — so no write is ever truncated — the bytes handed to the push
collaborator followed by the bytes still queued equal exactly the bytes
written, in order: the delivery is a prefix of the write stream with no
duplication, no loss and no reordering. -/
theorem C2_ring_buffer_fifo (ops : List RbEvent) (h : rbTraceOK 0 0 rbEmpty ops) :
    (rbRunTrace rbEmpty ops).2.2 ++ rbPending (rbRunTrace rbEmpty ops).1
      = (rbRunTrace rbEmpty ops).2.1 := by
  have hwf : rbWF rbEmpty := ⟨by decide, by decide⟩
  have h0 : rbBytesAvailable rbEmpty = 0 := by decide
  have hinv := rbTrace_invariant ops rbEmpty 0 0 hwf (by rw [h0]) h
  have hpend : rbPending rbEmpty = [] := by
    unfold rbPending
    rw [h0]
    rfl
  have h2 := hinv.2.1
  rw [hpend] at h2
  simpa using h2

/-- Witness for C2: write 100 bytes into the empty buffer, then drain
with the collaborator accepting 80 of them. -/
theorem C2_ring_buffer_fifo_witness :
    rbTraceOK 0 0 rbEmpty
        [RbEvent.write (List.replicate 100 7),
         RbEvent.drain NTRIP_CLIENT_CONNECTED 255 [80]] ∧
      (rbRunTrace rbEmpty
          [RbEvent.write (List.replicate 100 7),
           RbEvent.drain NTRIP_CLIENT_CONNECTED 255 [80]]).2.2 ++
        rbPending (rbRunTrace rbEmpty
          [RbEvent.write (List.replicate 100 7),
           RbEvent.drain NTRIP_CLIENT_CONNECTED 255 [80]]).1
      = (rbRunTrace rbEmpty
          [RbEvent.write (List.replicate 100 7),
           RbEvent.drain NTRIP_CLIENT_CONNECTED 255 [80]]).2.1 := by
  have hok : rbTraceOK 0 0 rbEmpty
      [RbEvent.write (List.replicate 100 7),
       RbEvent.drain NTRIP_CLIENT_CONNECTED 255 [80]] := by
    simp only [rbTraceOK]
    exact ⟨by norm_num [R4A_NTRIP_CLIENT_RING_BUFFER_BYTES], trivial⟩
  exact ⟨hok, C2_ring_buffer_fifo _ hok⟩

/-! ## Claim C3 -/

theorem rbRunWrites_avail :
    ∀ (datas : List (List Nat)) (rb : RingBuf), rbWF rb →
      rbWF (rbRunWrites rb datas) ∧
      rbBytesAvailable (rbRunWrites rb datas)
        = min (rbBytesAvailable rb + (datas.map List.length).sum)
            (R4A_NTRIP_CLIENT_RING_BUFFER_BYTES - 1) := by
  intro datas
  induction datas with
  | nil =>
    intro rb hwf
    have := rbBytesAvailable_le rb
    exact ⟨hwf, by simp [rbRunWrites]; omega⟩
  | cons d ds ih =>
    intro rb hwf
    have hspec := rbAddData_spec rb d hwf
    have hfree := rbBytesFree_eq rb hwf
    have h1 := ih (r4aNtripClientRbAddData rb d).1 hspec.2.2.1
    have hstep : rbRunWrites rb (d :: ds)
        = rbRunWrites (r4aNtripClientRbAddData rb d).1 ds := rfl
    refine ⟨hstep ▸ h1.1, ?_⟩
    rw [hstep, h1.2, hspec.2.2.2.1]
    have havle := rbBytesAvailable_le rb
    simp only [List.map_cons, List.sum_cons, R4A_NTRIP_CLIENT_RING_BUFFER_BYTES] at *
    omega

/-- C3: the write accepts exactly `min(length, free)` bytes with
`free = (tail - head + 2N - 1) mod N`, silently truncating the excess;
every well-formed buffer state (preserved by both operations from the
zero state) has `available() ≤ N - 1 = 8191`; writes never touch any
index at or beyond the `N`-byte array; and any write sequence totalling
more than 8191 bytes into the fresh buffer with no drain leaves
`available()` at exactly 8191. -/
theorem C3_write_truncation_overflow_bound :
    (∀ (rb : RingBuf) (data : List Nat), rbWF rb →
      (r4aNtripClientRbAddData rb data).2 = min data.length (rbBytesFree rb)) ∧
    (∀ rb : RingBuf, rbWF rb →
      rbBytesAvailable rb ≤ R4A_NTRIP_CLIENT_RING_BUFFER_BYTES - 1) ∧
    (∀ (rb : RingBuf) (data : List Nat), rbWF rb →
      rbWF (r4aNtripClientRbAddData rb data).1) ∧
    (∀ (st tx : Nat) (resp : List Nat) (rb : RingBuf), rbWF rb →
      rbWF (r4aNtripClientRbRemoveData st tx resp rb).1) ∧
    (∀ (rb : RingBuf) (data : List Nat) (x : Nat), rbWF rb →
      R4A_NTRIP_CLIENT_RING_BUFFER_BYTES ≤ x →
      (r4aNtripClientRbAddData rb data).1.buf x = rb.buf x) ∧
    (∀ datas : List (List Nat),
      R4A_NTRIP_CLIENT_RING_BUFFER_BYTES - 1 < (datas.map List.length).sum →
      rbBytesAvailable (rbRunWrites rbEmpty datas)
        = R4A_NTRIP_CLIENT_RING_BUFFER_BYTES - 1) := by
  refine ⟨fun rb data h => (rbAddData_spec rb data h).1,
    fun rb _ => rbBytesAvailable_le rb,
    fun rb data h => (rbAddData_spec rb data h).2.2.1,
    fun st tx resp rb h => (rbRemoveData_spec st tx resp rb h).1,
    fun rb data x h hx => (rbAddData_spec rb data h).2.2.2.2.2 x hx,
    fun datas hsum => ?_⟩
  have hwf : rbWF rbEmpty := ⟨by decide, by decide⟩
  have h0 : rbBytesAvailable rbEmpty = 0 := by decide
  have h1 := (rbRunWrites_avail datas rbEmpty hwf).2
  rw [h1, h0]
  simp only [R4A_NTRIP_CLIENT_RING_BUFFER_BYTES] at *
  omega

/-- Witness for C3: 8200 bytes written into the fresh buffer in one call
leave exactly 8191 bytes available, and the call reports
`min(8200, free)` bytes accepted. -/
theorem C3_write_truncation_overflow_bound_witness :
    rbWF rbEmpty ∧
      R4A_NTRIP_CLIENT_RING_BUFFER_BYTES - 1
        < (([List.replicate 8200 3]).map List.length).sum ∧
      rbBytesAvailable (rbRunWrites rbEmpty [List.replicate 8200 3])
        = R4A_NTRIP_CLIENT_RING_BUFFER_BYTES - 1 ∧
      (r4aNtripClientRbAddData rbEmpty (List.replicate 8200 3)).2
        = min (List.replicate 8200 3).length (rbBytesFree rbEmpty) := by
  have h1 : rbWF rbEmpty := ⟨by decide, by decide⟩
  have h2 : R4A_NTRIP_CLIENT_RING_BUFFER_BYTES - 1
      < (([List.replicate 8200 3]).map List.length).sum := by
    norm_num [R4A_NTRIP_CLIENT_RING_BUFFER_BYTES]
  exact ⟨h1, h2, C3_write_truncation_overflow_bound.2.2.2.2.2 _ h2,
    C3_write_truncation_overflow_bound.1 rbEmpty _ h1⟩
